import Mathlib

/-!
Shallow embedding of the FindMySong backend core (token cache, lyrics search,
catalog lookup, `/api/search-lyrics` aggregation) together with proofs of the
specification's claims about it.

Strings are modelled as `List Char`; JavaScript truthiness of a
possibly-absent string (`undefined`/`null`/`""` are falsy) is made explicit.
External HTTP interactions are modelled by outcome oracles: the handler and
the token cache receive the outcome of each upstream call as a parameter and
the embedding records which upstream interactions were initiated.
-/

namespace FindMySong

/-- Strings of the modelled program. -/
abbrev Str := List Char

/-- JS truthiness for a possibly-absent string: `undefined`/`null` and the
empty string are falsy, every other string is truthy. -/
def truthyS : Option Str → Bool
  | none => false
  | some s => !s.isEmpty

/-- JS `a || b` on possibly-absent strings. -/
def jsOr (a b : Option Str) : Option Str :=
  if truthyS a then a else b

/-- JS `a || null` on a possibly-absent string. -/
def jsOrNull (a : Option Str) : Option Str :=
  jsOr a none

/-- JS `String.prototype.toLowerCase`, character by character. -/
def lowerStr (s : Str) : Str :=
  s.map Char.toLower

/-- Whether `l` starts with `pre` (helper for substring containment). -/
def startsWithL : Str → Str → Bool
  | _, [] => true
  | [], _ :: _ => false
  | a :: as, b :: bs => (a == b) && startsWithL as bs

/-- JS `hay.includes(needle)`: substring containment. -/
def containsSub : Str → Str → Bool
  | [], needle => needle.isEmpty
  | a :: as, needle => startsWithL (a :: as) needle || containsSub as needle

/-- Whitespace characters removed by JS `String.prototype.trim` (the subset
relevant to the queries considered here). -/
def isJsSpace (c : Char) : Bool :=
  c == ' ' || c == '\t' || c == '\n' || c == '\r'

/-- JS `s.trim()`: drop whitespace from both ends. -/
def trimL (s : Str) : Str :=
  ((s.dropWhile isJsSpace).reverse.dropWhile isJsSpace).reverse

/-- JS `array.join(" ")` on a list of strings. -/
def joinSpace : List Str → Str
  | [] => []
  | [x] => x
  | x :: y :: rest => x ++ ' ' :: joinSpace (y :: rest)

/-! ### Data model (from `src/unnamed/part_002`) -/

/-- One Genius search hit (`hit.result` as the handler reads it): `title`,
`primary_artist?.name`, `url`, `song_art_image_url`. -/
structure GeniusHit where
  title : Str
  primary_artist_name : Option Str
  url : Str
  song_art_image_url : Option Str
deriving DecidableEq

/-- One Spotify track as the handler reads it: `name`, the artist names
(`artists[i].name`), the album image urls (`album.images[i].url`),
`external_urls.spotify` and `preview_url`. -/
structure SpotifyTrack where
  name : Str
  artistNames : List Str
  albumImageUrls : List Str
  externalUrlSpotify : Option Str
  preview_url : Option Str
deriving DecidableEq

/-- One element of the `/api/search-lyrics` response array. -/
structure AggItem where
  title : Str
  artist : Option Str
  genius_url : Str
  spotify_url : Option Str
  preview_url : Option Str
  image : Option Str
deriving DecidableEq

/-! ### LyricsClient: relevance filter and cap (part_002 lines 282-289) -/

/-- Filter predicate of the Genius hit list: the lowercased title or the
lowercased primary-artist name (empty when absent) contains the lowercased
original query. -/
def hitMatches (q : Str) (h : GeniusHit) : Bool :=
  let title := lowerStr h.title
  let artist := lowerStr (h.primary_artist_name.getD [])
  let search := lowerStr q
  containsSub title search || containsSub artist search

/-- `allHits.filter(...).slice(0, 25)`: relevance filter, then cap at 25. -/
def filterHits (q : Str) (allHits : List GeniusHit) : List GeniusHit :=
  (allHits.filter (hitMatches q)).take 25

/-! ### CatalogClient: best-track selection (part_002 lines 320-326) -/

/-- Predicate of the `find` call: the lowercased track name, or the
space-join of the lowercased artist names, contains the lowercased query. -/
def trackPred (q : Str) (t : SpotifyTrack) : Bool :=
  let name := lowerStr t.name
  let arts := joinSpace (t.artistNames.map lowerStr)
  let s := lowerStr q
  containsSub name s || containsSub arts s

/-- `items.find(pred) || items[0]`, with `undefined` for an empty list. -/
def findBestTrack (q : Str) (items : List SpotifyTrack) : Option SpotifyTrack :=
  match items.find? (trackPred q) with
  | some t => some t
  | none => items.head?

/-! ### Per-hit aggregation (part_002 lines 293-338) -/

/-- Outcome of one hit's catalog interaction: the token fetch threw, the
Spotify search threw, or the search returned a track list. -/
inductive CatalogOutcome where
  | tokenFail
  | searchFail
  | ok (items : List SpotifyTrack)
deriving DecidableEq

/-- The `base` object built for each hit before the catalog lookup. -/
def baseOf (h : GeniusHit) : AggItem :=
  { title := h.title
    artist := h.primary_artist_name
    genius_url := h.url
    spotify_url := none
    preview_url := none
    image := jsOrNull h.song_art_image_url }

/-- Merge of `base` with the (possibly absent) selected track:
`track?.external_urls?.spotify || null`, `track?.preview_url || null`,
`track?.album?.images?.[0]?.url || base.image`. -/
def mergeTrack (b : AggItem) (track : Option SpotifyTrack) : AggItem :=
  { b with
    spotify_url := jsOrNull (track.bind SpotifyTrack.externalUrlSpotify)
    preview_url := jsOrNull (track.bind SpotifyTrack.preview_url)
    image := jsOr (track.bind fun t => t.albumImageUrls.head?) b.image }

/-- Body of one iteration of the `for (const hit of hits)` loop: the catch
around the token fetch and the Spotify search pushes `base` on any failure,
the success path pushes the merged object. -/
def processHit (q : Str) (h : GeniusHit) (o : CatalogOutcome) : AggItem :=
  match o with
  | .tokenFail => baseOf h
  | .searchFail => baseOf h
  | .ok items => mergeTrack (baseOf h) (findBestTrack q items)

/-- The loop over the hits, threading the index into the per-hit oracle. -/
def aggregateFrom (q : Str) (oracle : Nat → CatalogOutcome) :
    Nat → List GeniusHit → List AggItem
  | _, [] => []
  | i, h :: hs => processHit q h (oracle i) :: aggregateFrom q oracle (i + 1) hs

/-- The aggregation of the filtered hits, one pushed result per hit. -/
def aggregate (q : Str) (oracle : Nat → CatalogOutcome) (hits : List GeniusHit) :
    List AggItem :=
  aggregateFrom q oracle 0 hits

/-! ### The `/api/search-lyrics` handler (part_002 lines 266-345) -/

/-- Upstream interactions the handler can initiate. `catalogToken` records
that the per-hit token path was invoked (it may be served from cache); an
empty trace means no upstream interaction was attempted at all. -/
inductive UpstreamCall where
  | geniusSearch
  | catalogToken
  | catalogSearch
deriving DecidableEq

/-- HTTP-level result of the handler. -/
inductive HandlerResult where
  | badRequest
  | serverError
  | okJson (items : List AggItem)
deriving DecidableEq

/-- Handler output: the response plus the trace of initiated upstream
interactions. -/
structure HandlerOut where
  result : HandlerResult
  calls : List UpstreamCall
deriving DecidableEq

/-- Upstream interactions of one loop iteration, per outcome. -/
def hitTrace : CatalogOutcome → List UpstreamCall
  | .tokenFail => [.catalogToken]
  | .searchFail => [.catalogToken, .catalogSearch]
  | .ok _ => [.catalogToken, .catalogSearch]

/-- Trace of the whole loop. -/
def aggTrace (oracle : Nat → CatalogOutcome) : Nat → List GeniusHit → List UpstreamCall
  | _, [] => []
  | i, _ :: hs => hitTrace (oracle i) ++ aggTrace oracle (i + 1) hs

/-- The handler: trim and validate `q`, require the Genius key, perform the
Genius search (its outcome is the `genius` parameter; a thrown error is
`Except.error`, and the outer catch turns it into a 200 with `[]`), filter
the hits, and run the per-hit aggregation loop. -/
def searchLyricsHandler (rawQ : Str) (geniusConfigured : Bool)
    (genius : Except Unit (List GeniusHit)) (oracle : Nat → CatalogOutcome) :
    HandlerOut :=
  let q := trimL rawQ
  if q.isEmpty then
    { result := .badRequest, calls := [] }
  else if !geniusConfigured then
    { result := .serverError, calls := [] }
  else
    match genius with
    | .error _ => { result := .okJson [], calls := [.geniusSearch] }
    | .ok allHits =>
      let hits := filterHits q allHits
      { result := .okJson (aggregate q oracle hits)
        calls := .geniusSearch :: aggTrace oracle 0 hits }

/-! ### Token cache (part_002 lines 159-201) -/

/-- The module-level cache: `cachedSpotifyToken` and `spotifyExpiresAt`. -/
structure TokenState where
  cachedToken : Option Str
  expiresAt : Int
deriving DecidableEq

/-- Body of the Spotify token response (`resp.data`). -/
structure TokenResp where
  access_token : Option Str
  expires_in : Int
deriving DecidableEq

/-- Outcome of the client-credentials POST: the request threw (network
error, timeout, non-2xx), or a response body came back. -/
inductive ExchangeOutcome where
  | netFail
  | ok (resp : TokenResp)
deriving DecidableEq

/-- Result of `getSpotifyToken`: the token, or a thrown error. -/
inductive TokenResult where
  | ok (tok : Str)
  | err
deriving DecidableEq

/-- `getSpotifyToken()`: return the cached token while it is still valid
(5000 ms safety margin); otherwise require the configured credentials,
perform the exchange, reject a missing/empty `access_token`, and on success
store the token and `expiresAt = now + expires_in * 1000`. The `Nat`
component counts identity-provider calls made by this invocation. -/
def getSpotifyToken (now : Int) (credsConfigured : Bool) (exchange : ExchangeOutcome)
    (st : TokenState) : TokenResult × TokenState × Nat :=
  if truthyS st.cachedToken = true ∧ now < st.expiresAt - 5000 then
    (.ok (st.cachedToken.getD []), st, 0)
  else if !credsConfigured then
    (.err, st, 0)
  else
    match exchange with
    | .netFail => (.err, st, 1)
    | .ok resp =>
      if truthyS resp.access_token then
        (.ok (resp.access_token.getD []),
          { cachedToken := resp.access_token
            expiresAt := now + resp.expires_in * 1000 }, 1)
      else
        (.err, st, 1)

/-! ### The part_004 variant's title dedup and the claim-side selection rule -/

/-- Dedup of the part_004 `/api/search-lyrics` variant:
`results.filter((v, i, a) => a.findIndex(t => t.title === v.title) === i)`. -/
def dedupByTitle (results : List AggItem) : List AggItem :=
  ((results.enum.filter fun p =>
      results.findIdx (fun t => t.title == p.2.title) == p.1).map Prod.snd)

/-- Claim-side selection predicate (C7's wording): the track name or any
single artist name case-insensitively contains the hint. -/
def trackPredAnyArtist (q : Str) (t : SpotifyTrack) : Bool :=
  containsSub (lowerStr t.name) (lowerStr q) ||
    t.artistNames.any fun a => containsSub (lowerStr a) (lowerStr q)

/-- Selection rule as claim C7 states it: first result matching
`trackPredAnyArtist`, else the first raw result, else none. -/
def findBestTrackSpec (q : Str) (items : List SpotifyTrack) : Option SpotifyTrack :=
  match items.find? (trackPredAnyArtist q) with
  | some t => some t
  | none => items.head?

/-- Amended selection predicate: the track name, or the space-joined
concatenation of the artist names, case-insensitively contains the hint. -/
def trackPredJoined (q : Str) (t : SpotifyTrack) : Bool :=
  containsSub (lowerStr t.name) (lowerStr q) ||
    containsSub (lowerStr (joinSpace t.artistNames)) (lowerStr q)

/-- Selection rule as amended claim C7 states it. -/
def findBestTrackAmended (q : Str) (items : List SpotifyTrack) : Option SpotifyTrack :=
  match items.find? (trackPredJoined q) with
  | some t => some t
  | none => items.head?

/-- Track image contributed by one hit's catalog outcome: the first album
image url of the selected track, when the search succeeded and selected a
track that has one. -/
def matchedTrackImage (q : Str) (o : CatalogOutcome) : Option Str :=
  match o with
  | .ok items => (findBestTrack q items).bind fun t => t.albumImageUrls.head?
  | _ => none

/-! ### Concrete sample data used by witnesses and counterexamples -/

def q0 : Str := "love".data

def trackA : SpotifyTrack :=
  ⟨"Love Story".data, ["Artist A".data], ["img-a".data], some "sp1".data, some "pv1".data⟩

def hitA : GeniusHit := ⟨"Love Story".data, some "Artist A".data, "g1".data, some "ga1".data⟩

def hitB : GeniusHit := ⟨"Endless Love".data, some "Artist B".data, "g2".data, none⟩

def hitC : GeniusHit := ⟨"Love Me".data, some "Artist C".data, "g3".data, none⟩

def hits3 : List GeniusHit := [hitA, hitB, hitC]

def oracleTokenFail : Nat → CatalogOutcome := fun _ => .tokenFail

def oracleOk : Nat → CatalogOutcome := fun _ => .ok [trackA]

def oracleFailAt1 : Nat → CatalogOutcome := fun i => if i == 1 then .searchFail else .ok [trackA]

def oracleTokenFailAt1 : Nat → CatalogOutcome := fun i => if i == 1 then .tokenFail else .ok [trackA]

/-! ### Helper lemmas about the aggregation loop -/

theorem aggregateFrom_length (q : Str) (oracle : Nat → CatalogOutcome) :
    ∀ (hits : List GeniusHit) (n : Nat),
      (aggregateFrom q oracle n hits).length = hits.length
  | [], _ => rfl
  | _ :: hs, n => by
    simp [aggregateFrom, aggregateFrom_length q oracle hs (n + 1)]

theorem aggregateFrom_getElem? (q : Str) (oracle : Nat → CatalogOutcome) :
    ∀ (hits : List GeniusHit) (n i : Nat),
      (aggregateFrom q oracle n hits)[i]? =
        (hits[i]?).map fun h => processHit q h (oracle (n + i))
  | [], _, _ => by simp [aggregateFrom]
  | _ :: _, _, 0 => by simp [aggregateFrom]
  | _ :: hs, n, i + 1 => by
    have h1 := aggregateFrom_getElem? q oracle hs (n + 1) i
    have h2 : n + 1 + i = n + (i + 1) := by omega
    rw [h2] at h1
    simpa [aggregateFrom] using h1

/-- Helper: if the first index satisfying a predicate is i and the element
there is x, then the first element satisfying the predicate is x. -/
theorem find?_eq_of_findIdx_getElem? (p : α → Bool) :
    ∀ (l : List α) (i : Nat) (x : α), l[i]? = some x → l.findIdx p = i →
      l.find? p = some x
  | [], _, _, hget, _ => by simp at hget
  | a :: as, i, x, hget, hidx => by
    cases hpa : p a with
    | true =>
      have hi : i = 0 := by
        rw [List.findIdx_cons, hpa] at hidx
        simpa using hidx.symm
      subst hi
      have hax : a = x := by simpa using hget
      subst hax
      simp [List.find?_cons, hpa]
    | false =>
      have hj : as.findIdx p + 1 = i := by
        rw [List.findIdx_cons, hpa] at hidx
        simpa using hidx
      obtain ⟨j, rfl⟩ : ∃ j, i = j + 1 := ⟨as.findIdx p, hj.symm⟩
      have hj' : as.findIdx p = j := by omega
      have hget' : as[j]? = some x := by simpa using hget
      have hrec := find?_eq_of_findIdx_getElem? p as j x hget' hj'
      simpa [List.find?_cons, hpa] using hrec

/-- Helper: the lowercase map distributes over the space-join. -/
theorem lowerStr_joinSpace : ∀ (l : List Str),
    lowerStr (joinSpace l) = joinSpace (l.map lowerStr)
  | [] => rfl
  | [_] => rfl
  | x :: y :: rest => by
    have hs : Char.toLower ' ' = ' ' := by decide
    have hrec := lowerStr_joinSpace (y :: rest)
    simp only [joinSpace, lowerStr, List.map_append, List.map_cons, List.map] at hrec ⊢
    simp [hs, hrec]

/-! ### Claim theorems -/

/-- Claim C1: for every non-empty query, when the lyrics-provider search
call itself fails (the handler's Genius request throws: network error,
timeout, non-2xx, malformed body) the handler returns the HTTP-level
success result with an empty array of results, never an error response. -/
theorem c1_total_lyrics_failure_degrades_to_empty_ok (rawQ : Str)
    (hq : (trimL rawQ).isEmpty = false) (oracle : Nat → CatalogOutcome) :
    (searchLyricsHandler rawQ true (.error ()) oracle).result = .okJson [] := by
  simp [searchLyricsHandler, hq]

theorem c1_witness :
    (searchLyricsHandler ("love".data) true (.error ()) oracleTokenFail).result =
      .okJson [] :=
  c1_total_lyrics_failure_degrades_to_empty_ok ("love".data) (by decide) oracleTokenFail

/-- Claim C4: a query that is empty or whitespace-only (its trim is empty)
is rejected with the 400-equivalent result, regardless of configuration and
of both upstream oracles, and the trace of initiated upstream interactions
is empty: no network call is made to any upstream service. -/
theorem c4_blank_query_rejected_without_calls (rawQ : Str) (hblank : trimL rawQ = [])
    (cfg : Bool) (genius : Except Unit (List GeniusHit)) (oracle : Nat → CatalogOutcome) :
    searchLyricsHandler rawQ cfg genius oracle = { result := .badRequest, calls := [] } := by
  simp [searchLyricsHandler, hblank]

theorem c4_witness :
    searchLyricsHandler ("   ".data) true (.ok []) oracleTokenFail =
      { result := .badRequest, calls := [] } :=
  c4_blank_query_rejected_without_calls ("   ".data) (by decide) true (.ok []) oracleTokenFail

/-- Claim C5: a first getSpotifyToken call on an empty cache performs the
one identity-provider exchange and stores the credential; a second call
while the stored credential is within its validity window (now before
expiresAt minus the 5000 ms margin) returns the cached value, leaves the
state unchanged and makes no network call, for any second-call oracle — so
the pair performs exactly one upstream identity-provider call. -/
theorem c5_token_reuse_single_upstream_call (t0 t1 ttl : Int) (tok : Str)
    (htok : tok ≠ []) (hwin : t1 < t0 + ttl * 1000 - 5000)
    (creds2 : Bool) (ex2 : ExchangeOutcome) :
    getSpotifyToken t0 true (.ok ⟨some tok, ttl⟩) ⟨none, 0⟩ =
      (.ok tok, ⟨some tok, t0 + ttl * 1000⟩, 1) ∧
    getSpotifyToken t1 creds2 ex2 ⟨some tok, t0 + ttl * 1000⟩ =
      (.ok tok, ⟨some tok, t0 + ttl * 1000⟩, 0) := by
  constructor
  · simp [getSpotifyToken, truthyS, List.isEmpty_iff, htok]
  · simp [getSpotifyToken, truthyS, List.isEmpty_iff, htok, hwin]

theorem c5_witness :
    getSpotifyToken 0 true (.ok ⟨some "tok".data, 3600⟩) ⟨none, 0⟩ =
      (.ok "tok".data, ⟨some "tok".data, 3600000⟩, 1) ∧
    getSpotifyToken 1000 false .netFail ⟨some "tok".data, 3600000⟩ =
      (.ok "tok".data, ⟨some "tok".data, 3600000⟩, 0) := by
  have h := c5_token_reuse_single_upstream_call 0 1000 3600 ("tok".data)
    (by decide) (by decide) false .netFail
  simpa using h

/-- Claim C6: when the client-credentials exchange performed on a cache
miss fails — the POST throws, or the response has no usable access_token —
the call surfaces the error and leaves the cached state exactly as it was,
so a later call can retry. -/
theorem c6_failed_exchange_leaves_cache_untouched (now : Int) (st : TokenState)
    (ex : ExchangeOutcome)
    (hmiss : ¬(truthyS st.cachedToken = true ∧ now < st.expiresAt - 5000))
    (hfail : ex = .netFail ∨ ∃ r, ex = .ok r ∧ truthyS r.access_token = false) :
    getSpotifyToken now true ex st = (.err, st, 1) := by
  rcases hfail with h | ⟨r, hex, hr⟩
  · subst h
    simp [getSpotifyToken, hmiss]
  · subst hex
    simp [getSpotifyToken, hmiss, hr]

theorem c6_witness :
    getSpotifyToken 0 true .netFail ⟨none, 0⟩ = (.err, ⟨none, 0⟩, 1) :=
  c6_failed_exchange_leaves_cache_untouched 0 ⟨none, 0⟩ .netFail (by decide) (Or.inl rfl)

/-- Claim C3: when the per-hit catalog lookup fails for some hit (token
fetch or catalog search threw), the aggregation still produces exactly one
result per processed hit: the failed hit keeps its lyric metadata with the
track fields null, and every hit's entry is determined by its own hit and
outcome alone. -/
theorem c3_per_hit_failure_keeps_partial_results (q : Str)
    (oracle : Nat → CatalogOutcome) (hits : List GeniusHit) (i : Nat) (h : GeniusHit)
    (hh : hits[i]? = some h) (hfail : oracle i = .tokenFail ∨ oracle i = .searchFail) :
    (aggregate q oracle hits).length = hits.length ∧
    (aggregate q oracle hits)[i]? = some (baseOf h) ∧
    (baseOf h).spotify_url = none ∧ (baseOf h).preview_url = none ∧
    ∀ j g, hits[j]? = some g →
      (aggregate q oracle hits)[j]? = some (processHit q g (oracle j)) := by
  refine ⟨aggregateFrom_length q oracle hits 0, ?_, rfl, rfl, ?_⟩
  · rw [aggregate, aggregateFrom_getElem? q oracle hits 0 i, hh]
    rcases hfail with h1 | h1 <;> simp [processHit, h1]
  · intro j g hg
    rw [aggregate, aggregateFrom_getElem? q oracle hits 0 j, hg]
    simp

theorem c3_witness :
    (aggregate q0 oracleFailAt1 hits3).length = hits3.length ∧
    (aggregate q0 oracleFailAt1 hits3)[1]? = some (baseOf hitB) := by
  have h := c3_per_hit_failure_keeps_partial_results q0 oracleFailAt1 hits3 1 hitB
    (by decide) (Or.inr rfl)
  exact ⟨h.1, h.2.1⟩

/-- Claim C9: a failure of the token fetch inside per-hit processing is
caught at the same per-hit scope as a catalog search failure: the two
outcomes produce the identical degraded lyric-only entry for that hit, the
response still contains one entry per hit, and every other hit's entry is
determined by its own hit and outcome alone. -/
theorem c9_token_failure_scoped_per_hit (q : Str) (oracle : Nat → CatalogOutcome)
    (hits : List GeniusHit) (i : Nat) (h : GeniusHit) (hh : hits[i]? = some h)
    (htok : oracle i = .tokenFail) :
    processHit q h .tokenFail = processHit q h .searchFail ∧
    (aggregate q oracle hits)[i]? = some (baseOf h) ∧
    (aggregate q oracle hits).length = hits.length ∧
    ∀ j g, hits[j]? = some g →
      (aggregate q oracle hits)[j]? = some (processHit q g (oracle j)) := by
  refine ⟨rfl, ?_, aggregateFrom_length q oracle hits 0, ?_⟩
  · rw [aggregate, aggregateFrom_getElem? q oracle hits 0 i, hh]
    simp [processHit, htok]
  · intro j g hg
    rw [aggregate, aggregateFrom_getElem? q oracle hits 0 j, hg]
    simp

theorem c9_witness :
    (aggregate q0 oracleTokenFailAt1 hits3)[1]? = some (baseOf hitB) ∧
    (aggregate q0 oracleTokenFailAt1 hits3).length = hits3.length := by
  have h := c9_token_failure_scoped_per_hit q0 oracleTokenFailAt1 hits3 1 hitB
    (by decide) rfl
  exact ⟨h.2.1, h.2.2.1⟩

/-- Claim C10: every produced entry's image field equals the fallback
chain: the selected track's first album image url when the catalog lookup
succeeded and that url is truthy, otherwise the hit's own song-art image
url when truthy, otherwise null; the field is present on every entry by
construction. -/
theorem c10_image_fallback_chain (q : Str) (oracle : Nat → CatalogOutcome)
    (hits : List GeniusHit) (i : Nat) (h : GeniusHit) (hh : hits[i]? = some h) :
    ((aggregate q oracle hits)[i]?).map AggItem.image =
      some (jsOr (matchedTrackImage q (oracle i)) (jsOrNull h.song_art_image_url)) := by
  rw [aggregate, aggregateFrom_getElem? q oracle hits 0 i, hh]
  cases ho : oracle i <;>
    simp [processHit, matchedTrackImage, mergeTrack, baseOf, jsOr, jsOrNull, truthyS, ho]

theorem c10_witness :
    ((aggregate q0 oracleOk [hitA])[0]?).map AggItem.image =
      some (jsOr (matchedTrackImage q0 (oracleOk 0)) (jsOrNull hitA.song_art_image_url)) :=
  c10_image_fallback_chain q0 oracleOk [hitA] 0 hitA rfl

/-- Claim C8: the lyrics search keeps only hits whose title or
primary-artist name case-insensitively contains the original query term,
caps the kept hits at 25, preserves their relative order among the raw
hits, and truncates after filtering: whenever at most 25 raw hits match,
every matching hit is kept. -/
theorem c8_filter_then_cap (q : Str) (allHits : List GeniusHit) :
    (filterHits q allHits).length ≤ 25 ∧
    (∀ h ∈ filterHits q allHits, hitMatches q h = true) ∧
    (filterHits q allHits).Sublist allHits ∧
    ((allHits.filter (hitMatches q)).length ≤ 25 →
      filterHits q allHits = allHits.filter (hitMatches q)) := by
  refine ⟨List.length_take_le _ _, ?_, ?_, fun hle => List.take_of_length_le hle⟩
  · intro h hmem
    exact List.of_mem_filter (List.mem_of_mem_take hmem)
  · exact (List.take_sublist _ _).trans (List.filter_sublist _)

theorem c8_witness :
    (filterHits q0 [hitA, hitB]).length ≤ 25 ∧
    filterHits q0 [hitA, hitB] = List.filter (hitMatches q0) [hitA, hitB] := by
  have h := c8_filter_then_cap q0 [hitA, hitB]
  exact ⟨h.1, h.2.2.2 (by decide)⟩

/-! ### Claim C2 (corrected): no title dedup in the Genius pipeline;
the dedup lives in the part_004 variant -/

def cexHitA : GeniusHit := ⟨"a".data, some "x".data, "u1".data, none⟩

def cexHitB : GeniusHit := ⟨"a".data, some "y".data, "u2".data, some "img".data⟩

/-- Claim C2 counterexample: two lyric hits with the identical title "a"
are both emitted by the Genius-based aggregation — the response holds two
entries with equal titles and distinct data, so the output does not contain
at most one result per distinct title and the second occurrence's data also
appears. -/
theorem c2_counterexample :
    (searchLyricsHandler ("a".data) true (.ok [cexHitA, cexHitB]) oracleTokenFail).result =
      .okJson [baseOf cexHitA, baseOf cexHitB] ∧
    (baseOf cexHitA).title = (baseOf cexHitB).title ∧
    baseOf cexHitA ≠ baseOf cexHitB := by decide

/-- Claim C2 (amended): the dedup by title is performed by the part_004
variant of the endpoint over its per-track results, not by the Genius
lyric-hit pipeline: dedupByTitle keeps an order-preserving selection of the
results (a sublist), titles in its output are pairwise distinct, and every
kept entry is the first entry of the input carrying its title. -/
theorem c2_amended_dedup_by_title (l : List AggItem) :
    (dedupByTitle l).Sublist l ∧
    (dedupByTitle l).Pairwise (fun a b => a.title ≠ b.title) ∧
    ∀ x ∈ dedupByTitle l, l.find? (fun t => t.title == x.title) = some x := by
  refine ⟨?_, ?_, ?_⟩
  · have h : ((l.enum.filter fun p =>
        l.findIdx (fun t => t.title == p.2.title) == p.1).map Prod.snd).Sublist
          (l.enum.map Prod.snd) :=
      (List.filter_sublist _).map Prod.snd
    rw [List.enum_map_snd] at h
    exact h
  · have henum : l.enum.Pairwise (fun p q : Nat × AggItem => p.1 < q.1) := by
      have h := List.pairwise_lt_range l.length
      rw [← List.enum_map_fst l] at h
      exact List.pairwise_map.1 h
    have hfil := henum.filter
      (fun p => l.findIdx (fun t => t.title == p.2.title) == p.1)
    have himp : (l.enum.filter fun p =>
        l.findIdx (fun t => t.title == p.2.title) == p.1).Pairwise
          (fun p q => p.2.title ≠ q.2.title) := by
      refine hfil.imp_of_mem ?_
      intro a b ha hb hlt heq
      have ea : l.findIdx (fun t => t.title == a.2.title) = a.1 :=
        eq_of_beq (List.mem_filter.1 ha).2
      have eb : l.findIdx (fun t => t.title == b.2.title) = b.1 :=
        eq_of_beq (List.mem_filter.1 hb).2
      rw [heq] at ea
      omega
    exact List.pairwise_map.2 himp
  · intro x hx
    unfold dedupByTitle at hx
    obtain ⟨p, hpmem, hpx⟩ := List.mem_map.1 hx
    obtain ⟨hpen, hP⟩ := List.mem_filter.1 hpmem
    have hget : l[p.1]? = some p.2 := List.mem_enum_iff_getElem?.1 hpen
    have hidx : l.findIdx (fun t => t.title == p.2.title) = p.1 :=
      eq_of_beq hP
    subst hpx
    exact find?_eq_of_findIdx_getElem? _ l p.1 p.2 hget hidx

theorem c2_amended_witness :
    (dedupByTitle [baseOf cexHitA, baseOf cexHitB]).Sublist
      [baseOf cexHitA, baseOf cexHitB] ∧
    dedupByTitle [baseOf cexHitA, baseOf cexHitB] = [baseOf cexHitA] := by
  have h := c2_amended_dedup_by_title [baseOf cexHitA, baseOf cexHitB]
  exact ⟨h.1, by decide⟩

/-! ### Claim C7 (corrected): containment is tested on the space-joined
artist names, not on each artist name separately -/

def cexTrack1 : SpotifyTrack := ⟨"zz".data, ["ab".data, "cd".data], [], some "u1".data, none⟩

def cexTrack2 : SpotifyTrack := ⟨"b c".data, [], [], some "u2".data, none⟩

/-- Claim C7 counterexample: with hint "b c", the first track's name "zz"
does not contain the hint and neither single artist name "ab" or "cd"
contains it, yet the space-join "ab cd" does; the code therefore selects
the first track while the claimed any-artist rule selects the second, so
the selection rule as claimed does not hold of the code. -/
theorem c7_counterexample :
    findBestTrack ("b c".data) [cexTrack1, cexTrack2] = some cexTrack1 ∧
    findBestTrackSpec ("b c".data) [cexTrack1, cexTrack2] = some cexTrack2 ∧
    findBestTrack ("b c".data) [cexTrack1, cexTrack2] ≠
      findBestTrackSpec ("b c".data) [cexTrack1, cexTrack2] := by decide

/-- Claim C7 (amended): the selection prefers the first result whose track
name, or the space-joined concatenation of whose artist names,
case-insensitively contains the match hint; otherwise it falls back to the
first raw result; and an empty result list yields none rather than a
thrown error. -/
theorem c7_amended_selection (q : Str) (items : List SpotifyTrack) :
    findBestTrack q items = findBestTrackAmended q items ∧
    (items = [] → findBestTrack q items = none) := by
  constructor
  · have hfun : trackPred q = trackPredJoined q := by
      funext t
      simp [trackPred, trackPredJoined, lowerStr_joinSpace]
    simp only [findBestTrack, findBestTrackAmended, hfun]
  · rintro rfl
    rfl

theorem c7_amended_witness :
    findBestTrack ("b c".data) [cexTrack1, cexTrack2] =
      findBestTrackAmended ("b c".data) [cexTrack1, cexTrack2] ∧
    findBestTrack ("b c".data) ([] : List SpotifyTrack) = none := by
  have h := c7_amended_selection ("b c".data) [cexTrack1, cexTrack2]
  have h2 := c7_amended_selection ("b c".data) ([] : List SpotifyTrack)
  exact ⟨h.1, h2.2 rfl⟩

end FindMySong
